import Mathlib

/-!
Verification development for the Trackfolio application (src/app.py).

The program is a single Streamlit script.  We give a shallow embedding of its
pure core:

* text cells are modelled as `List Char` (so that the CSV layer can be
  reasoned about character by character);
* the pandas calls `DataFrame.to_csv(index=False)` and `pd.read_csv` are
  modelled at the level of string-valued cells: `to_csv` writes a header line
  followed by one line per row, quoting a field (and doubling inner quotes)
  exactly when it contains a comma, a double quote, CR or LF
  (pandas QUOTE_MINIMAL); `read_csv` splits records at newlines that are not
  inside quotes, skips blank records, takes the first record as the column
  labels, splits each record at top-level commas and unquotes each field.
  pandas' dtype inference (numbers, NaN) is abstracted away: a cell is the
  verbatim field text, and a missing value is the empty cell (which is what
  `to_csv` writes for NaN).  Where pandas would raise on malformed input the
  model parses leniently.
* `pd.concat([existing_df, df], ignore_index=True)` is modelled by
  `concatDF`: the column labels of the result are those of the first frame
  followed by the fresh labels of the second, each row is realigned to the
  combined label list (`reindexRow`, the identity on rows that already match
  the labels), and the rows of the first frame precede those of the second;
* the Streamlit widgets and the Gemini client are modelled by explicit
  inputs: the uploaded file carries the outcome that `PdfReader` /
  `docx.Document` would produce on it, and the generative backend is a
  function from the prompt to either a response text or an exception message.
-/

namespace Trackfolio

/-- A cell (a column label or a field value): the verbatim text. -/
abbrev Cell := List Char

/-! ### CSV writing (model of `DataFrame.to_csv(index=False)`) -/

/-- pandas QUOTE_MINIMAL: a field is quoted iff it contains the delimiter,
the quote char, or a line-break character. -/
def needsQuote (f : Cell) : Bool :=
  f.any (fun c => c == ',' || c == '"' || c == '\n' || c == '\r')

/-- Double every inner quote (csv `doublequote=True`). -/
def escapeQuotes : Cell → Cell
  | [] => []
  | c :: t => if c = '"' then '"' :: '"' :: escapeQuotes t else c :: escapeQuotes t

/-- Encode one field: quote and escape it iff `needsQuote`. -/
def encField (f : Cell) : Cell :=
  if needsQuote f then '"' :: (escapeQuotes f ++ ['"']) else f

/-- Encode one record: fields joined by commas. -/
def encodeRow : List Cell → Cell
  | [] => []
  | [f] => encField f
  | f :: g :: t => encField f ++ ',' :: encodeRow (g :: t)

/-- Join records, terminating each (including the last) with a newline,
as `to_csv` does. -/
def joinRecs : List Cell → Cell
  | [] => []
  | r :: rs => r ++ '\n' :: joinRecs rs

/-- A pandas DataFrame at the string level: column labels and rows of cells. -/
structure DataFrame where
  cols : List Cell
  rows : List (List Cell)
deriving DecidableEq, Repr

/-- Model of `df.to_csv(index=False)`: header record then one record per row. -/
def to_csv (df : DataFrame) : Cell :=
  joinRecs ((df.cols :: df.rows).map encodeRow)

/-! ### CSV reading (model of `pd.read_csv`) -/

/-- Prepend a chunk of characters onto the first piece of a split. -/
def consChunk (f : Cell) : List Cell → List Cell
  | [] => [f]
  | h :: t => (f ++ h) :: t

/-- Split on `sep`, treating separators between quotes as ordinary
characters; quote characters are kept (they are removed by `unquote`).
`inQ` records whether the scan is currently inside a quoted region. -/
def splitTop (sep : Char) : Bool → Cell → List Cell
  | _, [] => [[]]
  | inQ, c :: rest =>
    if c = '"' then consChunk [c] (splitTop sep (!inQ) rest)
    else if inQ then consChunk [c] (splitTop sep inQ rest)
    else if c = sep then [] :: splitTop sep false rest
    else consChunk [c] (splitTop sep false rest)

/-- Undo quote escaping inside a quoted field: `""` becomes `"`, a lone
closing quote ends the field. -/
def unq : Cell → Cell
  | [] => []
  | [c] => if c = '"' then [] else [c]
  | c :: d :: t =>
    if c = '"' then (if d = '"' then '"' :: unq t else [])
    else c :: unq (d :: t)

/-- Strip the quoting of one field, if it is quoted. -/
def unquote : Cell → Cell
  | [] => []
  | c :: rest => if c = '"' then unq rest else c :: rest

/-- Parse one record into its fields. -/
def parseRecord (r : Cell) : List Cell :=
  (splitTop ',' false r).map unquote

/-- Model of `pd.read_csv`: split into records at top-level newlines, skip
blank records, use the first record as the column labels. -/
def read_csv (content : Cell) : DataFrame :=
  match (splitTop '\n' false content).filter (fun r => !r.isEmpty) with
  | [] => ⟨[], []⟩
  | h :: t => ⟨parseRecord h, t.map parseRecord⟩

/-! ### The tracker store (src/app.py lines 82-95) -/

/-- The declared column schema of the tracker (src/app.py line 87). -/
def trackerCols : List Cell :=
  ["Role".toList, "Company".toList, "Date Applied".toList,
   "Expected Salary".toList, "Status".toList, "Fit Summary".toList]

/-- The backing file: `none` when `data/job_tracker.csv` does not exist,
`some content` otherwise (`some []` is an existing zero-length file). -/
abbrev TrackerFile := Option Cell

/-- Model of `load_tracker` (src/app.py lines 85-88): an empty frame with the
declared schema when the file is missing or zero-length, else `read_csv`. -/
def load_tracker (file : TrackerFile) : DataFrame :=
  match file with
  | none => ⟨trackerCols, []⟩
  | some content => if content = [] then ⟨trackerCols, []⟩ else read_csv content

/-- Look a cell up by column label (first matching label; the empty cell
models pandas' NaN for a label the row does not cover). -/
def lookupCell : List Cell → List Cell → Cell → Cell
  | [], _, _ => []
  | _ :: _, [], _ => []
  | c0 :: cs, v :: vs, c => if c0 = c then v else lookupCell cs vs c

/-- Realign a row from the labels `src` to the labels `tgt`
(pandas column alignment; the identity when `tgt = src` matches the row). -/
def reindexRow (src tgt : List Cell) (row : List Cell) : List Cell :=
  tgt.map (fun c => lookupCell src row c)

/-- Model of `pd.concat([a, b], ignore_index=True)`: labels of `a` followed by
the fresh labels of `b`; rows of `a` first, each row realigned. -/
def concatDF (a b : DataFrame) : DataFrame :=
  let cols := a.cols ++ b.cols.filter (fun c => !(decide (c ∈ a.cols)))
  ⟨cols, a.rows.map (reindexRow a.cols cols) ++ b.rows.map (reindexRow b.cols cols)⟩

/-- Model of `save_tracker` (src/app.py lines 90-95): if the file exists and
is non-empty, read it, concatenate the new frame after it and overwrite;
otherwise write the new frame alone. -/
def save_tracker (file : TrackerFile) (df : DataFrame) : TrackerFile :=
  match file with
  | none => some (to_csv df)
  | some content =>
    if content = [] then some (to_csv df)
    else some (to_csv (concatDF (read_csv content) df))

/-! ### Document text extraction (src/app.py lines 26-48) -/

/-- An uploaded file: its name, and the outcome each document library would
produce on its bytes — `PdfReader` yields the per-page `extract_text`
results, `docx.Document` the per-paragraph texts; `.error e` is the
exception message when the library raises. -/
structure UploadedFile where
  name : List Char
  pdfParse : Except String (List String)
  docxParse : Except String (List String)
deriving Repr

/-- Model of `extract_text_from_pdf` (lines 26-31): keep the pages whose
extracted text is truthy (non-empty) and join them with newlines; an
exception becomes the prefixed error string. -/
def extract_text_from_pdf (f : UploadedFile) : String :=
  match f.pdfParse with
  | .ok pages => String.intercalate "\n" (pages.filter (fun p => p ≠ ""))
  | .error e => "Error reading PDF: " ++ e

/-- Model of `extract_text_from_docx` (lines 34-39): join all paragraph
texts (empty ones included) with newlines; an exception becomes the
prefixed error string. -/
def extract_text_from_docx (f : UploadedFile) : String :=
  match f.docxParse with
  | .ok paras => String.intercalate "\n" paras
  | .error e => "Error reading DOCX: " ++ e

/-- Model of `get_cv_text` (lines 42-48): dispatch on the (case-sensitive)
filename suffix, else return the empty string. -/
def get_cv_text (f : UploadedFile) : String :=
  if ".pdf".toList <:+ f.name then extract_text_from_pdf f
  else if ".docx".toList <:+ f.name then extract_text_from_docx f
  else ""

/-! ### Gemini wrappers (src/app.py lines 51-79) -/

/-- The generative backend: from a prompt to either the response text or the
message of the exception the client raised. -/
abbrev Backend := String → Except String String

/-- The prompt template of `analyze_cv_fit` (lines 52-60). -/
def fitPrompt (cv_text jd_text : String) : String :=
  "Compare this candidate's CV with the following job description.\nCV:\n"
    ++ cv_text ++ "\nJob Description:\n" ++ jd_text
    ++ "\nProvide:\n1. Strengths relevant to the job.\n2. Missing skills/experience.\n3. Overall match score out of 10."

/-- Model of `analyze_cv_fit` (lines 51-66). -/
def analyze_cv_fit (backend : Backend) (cv_text jd_text : String) : String :=
  match backend (fitPrompt cv_text jd_text) with
  | .ok t => t
  | .error e => "Error analyzing CV: " ++ e

/-- The prompt template of `generate_interview_questions` (lines 70-73). -/
def questionsPrompt (jd_text role : String) : String :=
  "Generate 5 job-specific interview questions with suggested answers for a "
    ++ role ++ ".\nJob Description:\n" ++ jd_text

/-- Model of `generate_interview_questions` (lines 69-79). -/
def generate_interview_questions (backend : Backend) (jd_text role : String) : String :=
  match backend (questionsPrompt jd_text role) with
  | .ok t => t
  | .error e => "Error generating questions: " ++ e

/-! ### The form/display controller (src/app.py lines 104-139) -/

/-- The widget values at the moment the button is clicked
(lines 104-110).  `expected_salary` is an `Int`: `st.number_input` with the
integer default 0 and integer step 1000 and no `min_value` yields an
unconstrained integer. -/
structure FormInputs where
  cv_file : Option UploadedFile
  job_desc : String
  role : String
  company : String
  expected_salary : Int
  application_date : String
  status : String
deriving Repr

/-- Python truthiness of `os.getenv`: `None` and the empty string are falsy. -/
def truthy : Option String → Bool
  | none => false
  | some s => !s.isEmpty

def missingKeyMsg : String := "❌ Missing Gemini API Key. Please set it in your .env file."

def savedMsg : String := "✅ Application saved and analyzed!"

def bothInputsMsg : String := "⚠️ Please upload your CV and paste the job description."

/-- What one click of the button produced: the backing file afterwards, the
messages shown, and how often `save_tracker` and
`generate_interview_questions` were invoked.  Fields in order: store,
errorShown, warningShown, successShown, fitShown, questionsShown,
genQCalls, saveCalls. -/
structure SubmitOutcome where
  store : TrackerFile
  errorShown : Option String
  warningShown : Option String
  successShown : Option String
  fitShown : Option String
  questionsShown : Option String
  genQCalls : Nat
  saveCalls : Nat
deriving Repr

/-- The row dict built on lines 121-128, in the order of `trackerCols`. -/
def buildRow (inp : FormInputs) (fit : String) : List Cell :=
  [inp.role.toList, inp.company.toList, inp.application_date.toList,
   (toString inp.expected_salary).toList, inp.status.toList, fit.toList]

/-- Model of the `Analyze & Save` button handler (src/app.py lines 113-139). -/
def handleSubmit (apiKey : Option String) (backend : Backend)
    (inp : FormInputs) (file : TrackerFile) : SubmitOutcome :=
  if truthy apiKey = false then
    ⟨file, some missingKeyMsg, none, none, none, none, 0, 0⟩
  else
    match inp.cv_file with
    | some f =>
      if inp.job_desc ≠ "" then
        let fit := analyze_cv_fit backend (get_cv_text f) inp.job_desc
        let file' := save_tracker file ⟨trackerCols, [buildRow inp fit]⟩
        if inp.status = "Interview" then
          ⟨file', none, none, some savedMsg, some fit,
           some (generate_interview_questions backend inp.job_desc inp.role), 1, 1⟩
        else
          ⟨file', none, none, some savedMsg, some fit, none, 0, 1⟩
      else ⟨file, none, some bothInputsMsg, none, none, none, 0, 0⟩
    | none => ⟨file, none, some bothInputsMsg, none, none, none, 0, 0⟩

/-! ### Lemmas about the CSV layer -/

theorem consChunk_ne_nil (f : Cell) (l : List Cell) : consChunk f l ≠ [] := by
  cases l <;> simp [consChunk]

theorem splitTop_ne_nil (sep : Char) (b : Bool) (l : Cell) : splitTop sep b l ≠ [] := by
  cases l with
  | nil => simp [splitTop]
  | cons c rest =>
    simp only [splitTop]
    split
    · exact consChunk_ne_nil _ _
    · split
      · exact consChunk_ne_nil _ _
      · split
        · simp
        · exact consChunk_ne_nil _ _

theorem consChunk_consChunk (a b : Cell) (l : List Cell) :
    consChunk a (consChunk b l) = consChunk (a ++ b) l := by
  cases l <;> simp [consChunk]

theorem consChunk_nil_of_ne (l : List Cell) (h : l ≠ []) : consChunk [] l = l := by
  cases l with
  | nil => exact absurd rfl h
  | cons x t => simp [consChunk]

theorem escapeQuotes_quote (t : Cell) :
    escapeQuotes ('"' :: t) = '"' :: '"' :: escapeQuotes t := by
  simp [escapeQuotes]

theorem escapeQuotes_other (c : Char) (t : Cell) (h : c ≠ '"') :
    escapeQuotes (c :: t) = c :: escapeQuotes t := by
  simp [escapeQuotes, h]

theorem splitTop_quote (sep : Char) (inQ : Bool) (rest : Cell) :
    splitTop sep inQ ('"' :: rest) = consChunk ['"'] (splitTop sep (!inQ) rest) := by
  simp [splitTop]

theorem splitTop_inq (sep c : Char) (rest : Cell) (h : c ≠ '"') :
    splitTop sep true (c :: rest) = consChunk [c] (splitTop sep true rest) := by
  simp [splitTop, h]

theorem unq_qq (t : Cell) : unq ('"' :: '"' :: t) = '"' :: unq t := by
  simp [unq]

theorem unq_other (c : Char) (t : Cell) (h : c ≠ '"') : unq (c :: t) = c :: unq t := by
  cases t <;> simp [unq, h]

/-- A chunk is protected for `sep` when scanning it from outside quotes
produces no split and ends outside quotes. -/
def Prot (sep : Char) (chunk : Cell) : Prop :=
  ∀ rest, splitTop sep false (chunk ++ rest) = consChunk chunk (splitTop sep false rest)

theorem prot_nil (sep : Char) : Prot sep [] := by
  intro rest
  rw [List.nil_append, consChunk_nil_of_ne _ (splitTop_ne_nil sep false rest)]

theorem prot_char (sep : Char) (c : Char) (h1 : c ≠ '"') (h2 : c ≠ sep) :
    Prot sep [c] := by
  intro rest
  simp [splitTop, h1, h2]

theorem prot_append (sep : Char) (a b : Cell) (ha : Prot sep a) (hb : Prot sep b) :
    Prot sep (a ++ b) := by
  intro rest
  rw [List.append_assoc, ha (b ++ rest), hb rest, consChunk_consChunk]

theorem prot_safe (sep : Char) (f : Cell) (h : ∀ c ∈ f, c ≠ '"' ∧ c ≠ sep) :
    Prot sep f := by
  induction f with
  | nil => exact prot_nil sep
  | cons c t ih =>
    have hc := h c (by simp)
    have : (c :: t) = [c] ++ t := rfl
    rw [this]
    exact prot_append sep [c] t (prot_char sep c hc.1 hc.2)
      (ih fun x hx => h x (by simp [hx]))

theorem splitTop_quoted_tail (sep : Char) (f : Cell) :
    ∀ rest, splitTop sep true (escapeQuotes f ++ '"' :: rest)
      = consChunk (escapeQuotes f ++ ['"']) (splitTop sep false rest) := by
  induction f with
  | nil =>
    intro rest
    rw [show escapeQuotes [] = [] from rfl, List.nil_append, List.nil_append, splitTop_quote,
      show (!true) = false from rfl]
  | cons c t ih =>
    intro rest
    by_cases hc : c = '"'
    · subst hc
      rw [escapeQuotes_quote, List.cons_append, List.cons_append, splitTop_quote,
        show (!true) = false from rfl, splitTop_quote, show (!false) = true from rfl,
        ih rest, consChunk_consChunk, consChunk_consChunk]
      rfl
    · rw [escapeQuotes_other c t hc, List.cons_append, splitTop_inq sep c _ hc,
        ih rest, consChunk_consChunk]
      rfl

theorem prot_quoted (sep : Char) (f : Cell) :
    Prot sep ('"' :: (escapeQuotes f ++ ['"'])) := by
  intro rest
  have h1 : ('"' :: (escapeQuotes f ++ ['"'])) ++ rest
      = '"' :: (escapeQuotes f ++ '"' :: rest) := by simp
  rw [h1, splitTop_quote, show (!false) = true from rfl, splitTop_quoted_tail sep f rest,
    consChunk_consChunk]
  rfl

theorem not_needsQuote_safe (f : Cell) (h : needsQuote f = false) :
    ∀ c ∈ f, c ≠ ',' ∧ c ≠ '"' ∧ c ≠ '\n' ∧ c ≠ '\r' := by
  intro c hc
  simp only [needsQuote, List.any_eq_false] at h
  have h' := h c hc
  simp only [Bool.or_eq_true, beq_iff_eq, not_or] at h'
  tauto

theorem prot_encField (sep : Char) (hsep : sep = ',' ∨ sep = '\n') (f : Cell) :
    Prot sep (encField f) := by
  cases hq : needsQuote f with
  | true =>
    have he : encField f = '"' :: (escapeQuotes f ++ ['"']) := by simp [encField, hq]
    rw [he]
    exact prot_quoted sep f
  | false =>
    have he : encField f = f := by simp [encField, hq]
    rw [he]
    refine prot_safe sep f fun c hc => ?_
    have hsafe := not_needsQuote_safe f hq c hc
    rcases hsep with rfl | rfl
    · exact ⟨hsafe.2.1, hsafe.1⟩
    · exact ⟨hsafe.2.1, hsafe.2.2.1⟩

theorem prot_encodeRow (r : List Cell) : Prot '\n' (encodeRow r) := by
  induction r with
  | nil => exact prot_nil '\n'
  | cons f t ih =>
    cases t with
    | nil => exact prot_encField '\n' (Or.inr rfl) f
    | cons g t' =>
      show Prot '\n' (encField f ++ ',' :: encodeRow (g :: t'))
      refine prot_append _ _ _ (prot_encField '\n' (Or.inr rfl) f) ?_
      show Prot '\n' ([','] ++ encodeRow (g :: t'))
      exact prot_append _ _ _ (prot_char '\n' ',' (by decide) (by decide)) ih

theorem splitTop_sep_cons (sep : Char) (hs : sep ≠ '"') (rest : Cell) :
    splitTop sep false (sep :: rest) = [] :: splitTop sep false rest := by
  simp [splitTop, hs]

theorem splitTop_chunk_sep (sep : Char) (hs : sep ≠ '"') (chunk : Cell)
    (hp : Prot sep chunk) (rest : Cell) :
    splitTop sep false (chunk ++ sep :: rest) = chunk :: splitTop sep false rest := by
  rw [hp (sep :: rest), splitTop_sep_cons sep hs rest]
  simp [consChunk]

theorem splitTop_joinRecs (rs : List Cell) (h : ∀ r ∈ rs, Prot '\n' r) :
    splitTop '\n' false (joinRecs rs) = rs ++ [[]] := by
  induction rs with
  | nil => simp [joinRecs, splitTop]
  | cons r rs ih =>
    show splitTop '\n' false (r ++ '\n' :: joinRecs rs) = (r :: rs) ++ [[]]
    rw [splitTop_chunk_sep '\n' (by decide) r (h r (by simp))]
    rw [ih fun x hx => h x (by simp [hx])]
    simp

theorem splitTop_encodeRow (t : List Cell) : ∀ f, splitTop ',' false (encodeRow (f :: t))
    = (f :: t).map encField := by
  induction t with
  | nil =>
    intro f
    show splitTop ',' false (encField f) = [encField f]
    rw [show encField f = encField f ++ [] from by simp,
      prot_encField ',' (Or.inl rfl) f []]
    simp [splitTop, consChunk]
  | cons g t' ih =>
    intro f
    show splitTop ',' false (encField f ++ ',' :: encodeRow (g :: t')) = _
    rw [splitTop_chunk_sep ',' (by decide) _ (prot_encField ',' (Or.inl rfl) f), ih g]
    simp

theorem escapeQuotes_eq_nil (t : Cell) : escapeQuotes t = [] ↔ t = [] := by
  cases t with
  | nil => simp [escapeQuotes]
  | cons c t' =>
    simp only [escapeQuotes]
    constructor
    · intro h
      by_cases hc : c = '"' <;> simp [hc] at h
    · intro h
      exact absurd h (by simp)

theorem unq_escape (f : Cell) : unq (escapeQuotes f ++ ['"']) = f := by
  induction f with
  | nil => simp [escapeQuotes, unq]
  | cons c t ih =>
    by_cases hc : c = '"'
    · subst hc
      rw [escapeQuotes_quote, List.cons_append, List.cons_append, unq_qq, ih]
    · rw [escapeQuotes_other c t hc, List.cons_append, unq_other c _ hc, ih]

theorem unquote_encField (f : Cell) : unquote (encField f) = f := by
  cases hq : needsQuote f with
  | true =>
    have he : encField f = '"' :: (escapeQuotes f ++ ['"']) := by simp [encField, hq]
    rw [he]
    have hu : unquote ('"' :: (escapeQuotes f ++ ['"'])) = unq (escapeQuotes f ++ ['"']) := by
      simp [unquote]
    rw [hu]
    exact unq_escape f
  | false =>
    have he : encField f = f := by simp [encField, hq]
    rw [he]
    cases f with
    | nil => rfl
    | cons c rest =>
      have hc : c ≠ '"' := (not_needsQuote_safe _ hq c (by simp)).2.1
      simp [unquote, hc]

theorem parseRecord_encodeRow (f : Cell) (t : List Cell) :
    parseRecord (encodeRow (f :: t)) = f :: t := by
  unfold parseRecord
  rw [splitTop_encodeRow t f, List.map_map]
  have h1 : (f :: t).map (unquote ∘ encField) = (f :: t).map id :=
    List.map_congr_left fun x _ => unquote_encField x
  rw [h1, List.map_id]

theorem encodeRow_ne_nil (f g : Cell) (t : List Cell) : encodeRow (f :: g :: t) ≠ [] := by
  show encField f ++ ',' :: encodeRow (g :: t) ≠ []
  simp

theorem to_csv_ne_nil (df : DataFrame) : to_csv df ≠ [] := by
  show joinRecs ((df.cols :: df.rows).map encodeRow) ≠ []
  simp [joinRecs]

/-- Key round-trip fact: `read_csv` parses `to_csv` output back to the same
frame, for any well-formed frame (at least two columns, each row as wide as
the header). -/
theorem two_le_shape (x : List Cell) (hx : 2 ≤ x.length) : ∃ a b t, x = a :: b :: t := by
  cases x with
  | nil => simp at hx
  | cons a x' =>
    cases x' with
    | nil => simp at hx
    | cons b t => exact ⟨a, b, t, rfl⟩

theorem read_csv_to_csv (df : DataFrame) (h2 : 2 ≤ df.cols.length)
    (hr : ∀ r ∈ df.rows, r.length = df.cols.length) :
    read_csv (to_csv df) = df := by
  obtain ⟨cols, rows⟩ := df
  dsimp only at h2 hr
  have hne : ∀ x ∈ (cols :: rows), encodeRow x ≠ [] := by
    intro x hx
    have hlen : 2 ≤ x.length := by
      rcases List.mem_cons.mp hx with rfl | hmem
      · exact h2
      · rw [hr x hmem]; exact h2
    obtain ⟨a, b, t, rfl⟩ := two_le_shape x hlen
    exact encodeRow_ne_nil a b t
  have key : (splitTop '\n' false (to_csv ⟨cols, rows⟩)).filter (fun r => !r.isEmpty)
      = encodeRow cols :: rows.map encodeRow := by
    show (splitTop '\n' false (joinRecs ((cols :: rows).map encodeRow))).filter
        (fun r => !r.isEmpty) = _
    rw [splitTop_joinRecs _ (by
      intro r hrm
      obtain ⟨x, _, rfl⟩ := List.mem_map.mp hrm
      exact prot_encodeRow x)]
    rw [List.filter_append]
    rw [List.filter_eq_self.mpr (by
      intro r hrm
      obtain ⟨x, hx, rfl⟩ := List.mem_map.mp hrm
      simpa using hne x hx)]
    simp
  have hread : read_csv (to_csv ⟨cols, rows⟩)
      = ⟨parseRecord (encodeRow cols), (rows.map encodeRow).map parseRecord⟩ := by
    unfold read_csv
    rw [key]
  rw [hread]
  obtain ⟨c1, c2, cs, rfl⟩ := two_le_shape cols h2
  rw [parseRecord_encodeRow c1 (c2 :: cs), List.map_map]
  have hmap : rows.map (parseRecord ∘ encodeRow) = rows.map id :=
    List.map_congr_left (by
      intro x hx
      obtain ⟨a, b, t, rfl⟩ := two_le_shape x (by rw [hr x hx]; exact h2)
      exact parseRecord_encodeRow a (b :: t))
  rw [hmap, List.map_id]

/-! ### Lemmas about the tracker store -/

theorem trackerCols_nodup : trackerCols.Nodup := by decide

theorem trackerCols_length : trackerCols.length = 6 := rfl

theorem reindexRow_length (src tgt : List Cell) (row : List Cell) :
    (reindexRow src tgt row).length = tgt.length := by
  simp [reindexRow]

/-- The combined label list of `concatDF` contains every tracker column. -/
theorem trackerCols_subset_concat (a : List Cell) :
    trackerCols ⊆ a ++ trackerCols.filter (fun c => !(decide (c ∈ a))) := by
  intro c hcm
  by_cases hca : c ∈ a
  · exact List.mem_append_left _ hca
  · refine List.mem_append_right _ ?_
    rw [List.mem_filter]
    exact ⟨hcm, by simp [hca]⟩

/-- The combined label list of `concatDF` has at least two entries whenever
the second frame has the tracker schema. -/
theorem concat_cols_two_le (a : List Cell) :
    2 ≤ (a ++ trackerCols.filter (fun c => !(decide (c ∈ a)))).length := by
  calc 2 ≤ trackerCols.length := by decide
    _ ≤ _ := (trackerCols_nodup.subperm (trackerCols_subset_concat a)).length_le

theorem lookupCell_map_self (g : Cell → Cell) (tgt : List Cell) (c : Cell) (hc : c ∈ tgt) :
    lookupCell tgt (tgt.map g) c = g c := by
  induction tgt with
  | nil => simp at hc
  | cons t ts ih =>
    show (if t = c then g t else lookupCell ts (ts.map g) c) = g c
    by_cases ht : t = c
    · rw [if_pos ht, ht]
    · rw [if_neg ht]
      exact ih (by rcases List.mem_cons.mp hc with rfl | h; exact absurd rfl ht; exact h)

/-- Realigning a row to the very labels it already matches is the identity
(for duplicate-free labels). -/
theorem reindexRow_self (cols : List Cell) (row : List Cell) (hnd : cols.Nodup)
    (hlen : row.length = cols.length) : reindexRow cols cols row = row := by
  unfold reindexRow
  induction cols generalizing row with
  | nil =>
    cases row with
    | nil => rfl
    | cons v vs => simp at hlen
  | cons c cs ih =>
    cases row with
    | nil => simp at hlen
    | cons v vs =>
      have hlen' : vs.length = cs.length := by simpa using hlen
      have hhead : lookupCell (c :: cs) (v :: vs) c = v := by
        show (if c = c then v else _) = v
        rw [if_pos rfl]
      have htail : cs.map (fun x => lookupCell (c :: cs) (v :: vs) x)
          = cs.map (fun x => lookupCell cs vs x) := by
        refine List.map_congr_left fun x hx => ?_
        have hcx : c ≠ x := fun h => (List.nodup_cons.mp hnd).1 (h ▸ hx)
        show (if c = x then v else lookupCell cs vs x) = _
        rw [if_neg hcx]
      rw [List.map_cons, hhead, htail, ih vs (List.nodup_cons.mp hnd).2 hlen']

/-- Core behaviour of `save_tracker` followed by `load_tracker`, for a new
frame carrying the tracker schema: the row count adds up, and the result is
the realigned prior rows followed by the realigned new rows. -/
theorem save_load_core (file : TrackerFile) (b : DataFrame)
    (hc : b.cols = trackerCols)
    (hr : ∀ r ∈ b.rows, r.length = trackerCols.length) :
    (load_tracker (save_tracker file b)).rows
        = (load_tracker file).rows.map
            (reindexRow (load_tracker file).cols (load_tracker (save_tracker file b)).cols)
          ++ b.rows.map (reindexRow b.cols (load_tracker (save_tracker file b)).cols)
    ∧ (load_tracker (save_tracker file b)).rows.length
        = (load_tracker file).rows.length + b.rows.length
    ∧ trackerCols ⊆ (load_tracker (save_tracker file b)).cols := by
  have hfresh : load_tracker (some (to_csv b)) = b := by
    simp only [load_tracker]
    rw [if_neg (to_csv_ne_nil b)]
    exact read_csv_to_csv b (by rw [hc]; decide) (by rw [hc]; exact hr)
  have hself : b.rows.map (reindexRow b.cols b.cols) = b.rows := by
    have h1 : b.rows.map (reindexRow b.cols b.cols) = b.rows.map id :=
      List.map_congr_left fun r hrm =>
        reindexRow_self b.cols r (hc ▸ trackerCols_nodup) (by rw [hc]; exact hr r hrm)
    rw [h1, List.map_id]
  have hconcat : ∀ old : DataFrame, read_csv (to_csv (concatDF old b)) = concatDF old b := by
    intro old
    refine read_csv_to_csv _ ?_ ?_
    · show 2 ≤ (old.cols ++ b.cols.filter fun c => !(decide (c ∈ old.cols))).length
      rw [hc]
      exact concat_cols_two_le old.cols
    · intro r hrm
      show r.length = (old.cols ++ b.cols.filter fun c => !(decide (c ∈ old.cols))).length
      rcases List.mem_append.mp hrm with hl | hl <;>
        · obtain ⟨x, _, rfl⟩ := List.mem_map.mp hl
          exact reindexRow_length _ _ x
  match file with
  | none =>
    have hs : save_tracker none b = some (to_csv b) := rfl
    have hn : load_tracker none = ⟨trackerCols, []⟩ := rfl
    rw [hs, hfresh, hn]
    dsimp only
    rw [List.map_nil, List.nil_append, hself]
    exact ⟨rfl, by simp, by rw [hc]; exact fun x hx => hx⟩
  | some content =>
    by_cases hcont : content = []
    · subst hcont
      have hs : save_tracker (some ([] : Cell)) b = some (to_csv b) := rfl
      have hload : load_tracker (some ([] : Cell)) = ⟨trackerCols, []⟩ := rfl
      rw [hs, hfresh, hload]
      dsimp only
      rw [List.map_nil, List.nil_append, hself]
      exact ⟨rfl, by simp, by rw [hc]; exact fun x hx => hx⟩
    · have hs : save_tracker (some content) b
          = some (to_csv (concatDF (read_csv content) b)) := by
        simp only [save_tracker]
        rw [if_neg hcont]
      have hload : load_tracker (some content) = read_csv content := by
        simp only [load_tracker]
        rw [if_neg hcont]
      have hload2 : load_tracker (some (to_csv (concatDF (read_csv content) b)))
          = concatDF (read_csv content) b := by
        simp only [load_tracker]
        rw [if_neg (to_csv_ne_nil _)]
        exact hconcat (read_csv content)
      rw [hs, hload2, hload]
      refine ⟨rfl, ?_, ?_⟩
      · show ((read_csv content).rows.map _ ++ b.rows.map _).length = _
        rw [List.length_append, List.length_map, List.length_map]
      · show trackerCols ⊆ (read_csv content).cols
          ++ b.cols.filter (fun c => !(decide (c ∈ (read_csv content).cols)))
        rw [hc]
        exact trackerCols_subset_concat _

/-! ### Lemmas about the extractor -/

theorem get_cv_text_of_not_suffix (f : UploadedFile)
    (hp : ¬ (".pdf".toList <:+ f.name)) (hd : ¬ (".docx".toList <:+ f.name)) :
    get_cv_text f = "" := by
  unfold get_cv_text
  rw [if_neg hp, if_neg hd]

theorem suffix_eq_of_length_eq {s t name : List Char} (hs : s <:+ name) (ht : t <:+ name)
    (hlen : s.length = t.length) : s = t := by
  obtain ⟨u, hu⟩ := hs
  obtain ⟨v, hv⟩ := ht
  exact (List.append_inj' (hu.trans hv.symm) hlen).2

theorem suffix_getLast? {s name : List Char} (hs : s <:+ name) (hne : s ≠ []) :
    name.getLast? = s.getLast? := by
  obtain ⟨u, rfl⟩ := hs
  exact List.getLast?_append_of_ne_nil u hne

/-! ### The claims about document extraction -/

/-- Claim C6: for an uploaded file whose name does not end in the recognized
`.pdf` or `.docx` extension, `get_cv_text` returns the empty string — not an
error string. -/
theorem unsupported_extension_empty (f : UploadedFile)
    (hp : ¬ (".pdf".toList <:+ f.name)) (hd : ¬ (".docx".toList <:+ f.name)) :
    get_cv_text f = "" :=
  get_cv_text_of_not_suffix f hp hd

/-- Witness for C6 on a `.txt` file. -/
theorem unsupported_extension_empty_witness :
    get_cv_text ⟨"cv.txt".toList, .ok ["some text"], .ok ["some text"]⟩ = "" :=
  unsupported_extension_empty ⟨"cv.txt".toList, .ok ["some text"], .ok ["some text"]⟩
    (by decide) (by decide)

/-- Claim C7: for a PDF every one of whose pages yields non-empty text, the
extractor output is exactly the page texts joined by newlines, one segment
per page, in page order. -/
theorem pdf_extract_all_pages (f : UploadedFile) (pages : List String)
    (hp : f.pdfParse = .ok pages) (h : ∀ p ∈ pages, p ≠ "") :
    extract_text_from_pdf f = String.intercalate "\n" pages := by
  have h1 : extract_text_from_pdf f
      = String.intercalate "\n" (pages.filter (fun p => p ≠ "")) := by
    unfold extract_text_from_pdf
    rw [hp]
  rw [h1, List.filter_eq_self.mpr (by intro p hpm; simpa using h p hpm)]

/-- Witness for C7 on a two-page PDF. -/
theorem pdf_extract_all_pages_witness :
    extract_text_from_pdf ⟨"cv.pdf".toList, .ok ["page one", "page two"], .ok []⟩
      = String.intercalate "\n" ["page one", "page two"] :=
  pdf_extract_all_pages ⟨"cv.pdf".toList, .ok ["page one", "page two"], .ok []⟩
    ["page one", "page two"] rfl (by decide)

/-- Claim C8: for a DOCX the extractor output is exactly the paragraph texts
joined by newlines, one segment per paragraph (empty ones included), in
document order. -/
theorem docx_extract_all_paragraphs (name : List Char) (p : Except String (List String))
    (paras : List String) :
    extract_text_from_docx ⟨name, p, .ok paras⟩ = String.intercalate "\n" paras := rfl

/-- Claim C10: extension dispatch in `get_cv_text` is case-sensitive — a
filename ending in an upper- or mixed-case variant of `.pdf` or `.docx`
(the variant itself not being the lowercase extension) is not dispatched to
either extractor; the result is the empty string. -/
theorem mixed_case_extension_empty (f : UploadedFile) (s : List Char)
    (hs : s <:+ f.name)
    (hvar : s.map Char.toLower = ".pdf".toList ∨ s.map Char.toLower = ".docx".toList)
    (hne1 : s ≠ ".pdf".toList) (hne2 : s ≠ ".docx".toList) :
    get_cv_text f = "" := by
  rcases hvar with hv | hv
  · have hlen : s.length = 4 := by
      have h := congrArg List.length hv
      simpa using h
    have hsne : s ≠ [] := by
      intro h
      rw [h] at hlen
      simp at hlen
    refine get_cv_text_of_not_suffix f ?_ ?_
    · intro hpdf
      exact hne1 (suffix_eq_of_length_eq hs hpdf (by rw [hlen]; rfl))
    · intro hdocx
      have h1 : f.name.getLast? = some 'x' := by
        rw [suffix_getLast? hdocx (by decide)]
        rfl
      have h2 : s.getLast? = some 'x' := (suffix_getLast? hs hsne).symm.trans h1
      have h4 : s.getLast?.map Char.toLower = some 'f' := by
        rw [← List.getLast?_map, hv]
        rfl
      rw [h2] at h4
      exact absurd h4 (by decide)
  · have hlen : s.length = 5 := by
      have h := congrArg List.length hv
      simpa using h
    have hsne : s ≠ [] := by
      intro h
      rw [h] at hlen
      simp at hlen
    refine get_cv_text_of_not_suffix f ?_ ?_
    · intro hpdf
      have h1 : f.name.getLast? = some 'f' := by
        rw [suffix_getLast? hpdf (by decide)]
        rfl
      have h2 : s.getLast? = some 'f' := (suffix_getLast? hs hsne).symm.trans h1
      have h4 : s.getLast?.map Char.toLower = some 'x' := by
        rw [← List.getLast?_map, hv]
        rfl
      rw [h2] at h4
      exact absurd h4 (by decide)
    · intro hdocx
      exact hne2 (suffix_eq_of_length_eq hs hdocx (by rw [hlen]; rfl))

/-- Witness for C10 on an uppercase `.PDF` file containing extractable text. -/
theorem mixed_case_extension_empty_witness :
    get_cv_text ⟨"cv.PDF".toList, .ok ["some text"], .ok ["some text"]⟩ = "" :=
  mixed_case_extension_empty ⟨"cv.PDF".toList, .ok ["some text"], .ok ["some text"]⟩
    ".PDF".toList (by decide) (Or.inl (by decide)) (by decide) (by decide)

/-! ### The claims about the tracker store -/

/-- Claim C1: saving a batch of schema rows and immediately loading returns a
table whose row count is the prior row count plus the batch size, and whose
rows are the prior rows first, in their original order (realigned to the
combined column labels by pandas column alignment — the identity whenever
the labels agree), followed by the new rows: no deduplication, no key. -/
theorem save_then_load_appends (file : TrackerFile) (b : DataFrame)
    (hc : b.cols = trackerCols)
    (hr : ∀ r ∈ b.rows, r.length = trackerCols.length) :
    (load_tracker (save_tracker file b)).rows.length
        = (load_tracker file).rows.length + b.rows.length
    ∧ (load_tracker (save_tracker file b)).rows
        = (load_tracker file).rows.map
            (reindexRow (load_tracker file).cols (load_tracker (save_tracker file b)).cols)
          ++ b.rows.map (reindexRow b.cols (load_tracker (save_tracker file b)).cols) :=
  ⟨(save_load_core file b hc hr).2.1, (save_load_core file b hc hr).1⟩

/-- A concrete prior backing file with one data row. -/
def fileW1 : TrackerFile :=
  some ("Role,Company,Date Applied,Expected Salary,Status,Fit Summary\na,b,c,1,d,e\n".toList)

/-- A concrete one-row batch carrying the tracker schema. -/
def dfW1 : DataFrame :=
  ⟨trackerCols,
   [["r".toList, "co".toList, "2026-01-01".toList, "900".toList,
     "Applied".toList, "fit".toList]]⟩

/-- Witness for C1: a concrete non-empty prior file and a one-row batch. -/
theorem save_then_load_appends_witness :
    (load_tracker (save_tracker fileW1 dfW1)).rows.length
        = (load_tracker fileW1).rows.length + dfW1.rows.length
    ∧ (load_tracker (save_tracker fileW1 dfW1)).rows
        = (load_tracker fileW1).rows.map
            (reindexRow (load_tracker fileW1).cols (load_tracker (save_tracker fileW1 dfW1)).cols)
          ++ dfW1.rows.map (reindexRow dfW1.cols (load_tracker (save_tracker fileW1 dfW1)).cols) :=
  save_then_load_appends fileW1 dfW1 rfl (by decide)

/-- Claim C2: loading a missing or zero-length backing file yields a table
with zero rows whose columns are exactly the declared schema: Role, Company,
Date Applied, Expected Salary, Status, Fit Summary. -/
theorem load_missing_or_empty_schema :
    (load_tracker none).rows = []
    ∧ (load_tracker none).cols
        = ["Role".toList, "Company".toList, "Date Applied".toList,
           "Expected Salary".toList, "Status".toList, "Fit Summary".toList]
    ∧ (load_tracker (some [])).rows = []
    ∧ (load_tracker (some [])).cols
        = ["Role".toList, "Company".toList, "Date Applied".toList,
           "Expected Salary".toList, "Status".toList, "Fit Summary".toList] :=
  ⟨rfl, rfl, rfl, rfl⟩

/-- Claim C5: exporting the in-memory table as CSV and re-parsing the
exported content yields the very same table, columns and rows, for every
well-formed table (at least two columns, each row as wide as the header). -/
theorem csv_export_roundtrip (df : DataFrame) (h2 : 2 ≤ df.cols.length)
    (hr : ∀ r ∈ df.rows, r.length = df.cols.length) :
    read_csv (to_csv df) = df :=
  read_csv_to_csv df h2 hr

/-- A concrete table exercising quoting: commas, quotes and a line break. -/
def dfW5 : DataFrame :=
  ⟨["col a".toList, "col b".toList],
   [["plain".toList, "with, comma".toList],
    ["say \"hi\"".toList, "line\nbreak".toList]]⟩

/-- Witness for C5 on a table whose cells need quoting. -/
theorem csv_export_roundtrip_witness : read_csv (to_csv dfW5) = dfW5 :=
  csv_export_roundtrip dfW5 (by decide) (by decide)

/-! ### The claims about the form controller -/

/-- Claim C3: when the backend credential is absent (unset or empty), a
submission — even with a CV file and a non-empty job description — shows the
blocking credential error, never invokes `save_tracker`, and leaves the
backing store, hence its row count, unchanged. -/
theorem missing_credential_blocks (apiKey : Option String) (backend : Backend)
    (inp : FormInputs) (file : TrackerFile)
    (habs : truthy apiKey = false)
    (_hcv : inp.cv_file.isSome = true) (_hjd : inp.job_desc ≠ "") :
    (handleSubmit apiKey backend inp file).errorShown = some missingKeyMsg
    ∧ (handleSubmit apiKey backend inp file).saveCalls = 0
    ∧ (handleSubmit apiKey backend inp file).store = file
    ∧ (load_tracker (handleSubmit apiKey backend inp file).store).rows.length
        = (load_tracker file).rows.length := by
  have h : handleSubmit apiKey backend inp file
      = ⟨file, some missingKeyMsg, none, none, none, none, 0, 0⟩ := by
    unfold handleSubmit
    rw [if_pos habs]
  rw [h]
  exact ⟨rfl, rfl, rfl, rfl⟩

/-- A concrete uploaded PDF. -/
def uploadW : UploadedFile := ⟨"cv.pdf".toList, .ok ["experienced dev"], .ok []⟩

/-- A concrete backend that always answers. -/
def backendW : Backend := fun _ => .ok "a fit summary"

/-- Concrete form inputs: valid CV, non-empty job description, status Applied. -/
def inpW3 : FormInputs := ⟨some uploadW, "a job", "Dev", "Acme", 900, "2026-10-12", "Applied"⟩

/-- Witness for C3: credential unset, valid file and description supplied. -/
theorem missing_credential_blocks_witness :
    (handleSubmit none backendW inpW3 none).errorShown = some missingKeyMsg
    ∧ (handleSubmit none backendW inpW3 none).saveCalls = 0
    ∧ (handleSubmit none backendW inpW3 none).store = none
    ∧ (load_tracker (handleSubmit none backendW inpW3 none).store).rows.length
        = (load_tracker none).rows.length :=
  missing_credential_blocks none backendW inpW3 none rfl rfl (by decide)

/-- Claim C4: `generate_interview_questions` is invoked exactly on the
submissions that succeed (credential present, CV file present, job
description non-empty) with Status "Interview", and then both the fit
summary and the questions are displayed; with any other Status it is never
invoked. -/
theorem interview_question_gating (apiKey : Option String) (backend : Backend)
    (inp : FormInputs) (file : TrackerFile) :
    ((handleSubmit apiKey backend inp file).genQCalls = 1
      ↔ truthy apiKey = true ∧ inp.cv_file.isSome = true ∧ inp.job_desc ≠ ""
          ∧ inp.status = "Interview")
    ∧ (inp.status ≠ "Interview" → (handleSubmit apiKey backend inp file).genQCalls = 0)
    ∧ (∀ f, truthy apiKey = true → inp.cv_file = some f → inp.job_desc ≠ ""
        → inp.status = "Interview"
        → (handleSubmit apiKey backend inp file).fitShown
            = some (analyze_cv_fit backend (get_cv_text f) inp.job_desc)
          ∧ (handleSubmit apiKey backend inp file).questionsShown
            = some (generate_interview_questions backend inp.job_desc inp.role)) := by
  cases hkey : truthy apiKey with
  | false => simp [handleSubmit, hkey]
  | true =>
    cases hcv : inp.cv_file with
    | none => simp [handleSubmit, hkey, hcv]
    | some f =>
      by_cases hjd : inp.job_desc = ""
      · simp [handleSubmit, hkey, hcv, hjd]
      · by_cases hst : inp.status = "Interview"
        · simp [handleSubmit, hkey, hcv, hjd, hst]
        · simp [handleSubmit, hkey, hcv, hjd, hst]

/-- Concrete form inputs with status Interview. -/
def inpW4 : FormInputs := ⟨some uploadW, "a job", "Dev", "Acme", 900, "2026-10-12", "Interview"⟩

/-- Witness for C4: with status Interview the generator runs once and both
outputs are shown; with status Applied it never runs. -/
theorem interview_question_gating_witness :
    (handleSubmit (some "key") backendW inpW4 none).genQCalls = 1
    ∧ (handleSubmit (some "key") backendW inpW3 none).genQCalls = 0
    ∧ (handleSubmit (some "key") backendW inpW4 none).fitShown
        = some (analyze_cv_fit backendW (get_cv_text uploadW) inpW4.job_desc)
    ∧ (handleSubmit (some "key") backendW inpW4 none).questionsShown
        = some (generate_interview_questions backendW inpW4.job_desc inpW4.role) :=
  ⟨(interview_question_gating (some "key") backendW inpW4 none).1.mpr
      ⟨rfl, rfl, by decide, rfl⟩,
   (interview_question_gating (some "key") backendW inpW3 none).2.1 (by decide),
   ((interview_question_gating (some "key") backendW inpW4 none).2.2 uploadW rfl rfl
      (by decide) rfl).1,
   ((interview_question_gating (some "key") backendW inpW4 none).2.2 uploadW rfl rfl
      (by decide) rfl).2⟩

/-- Concrete form inputs with a negative salary. -/
def inpW9 : FormInputs := ⟨some uploadW, "a job", "Dev", "Acme", -1000, "2026-10-12", "Applied"⟩

/-- Counterexample to claim C9 as stated: submitting with salary -1000 (the
widget has no lower bound) persists a record whose Expected Salary cell is
the negative number -1000. -/
theorem salary_nonneg_counterexample :
    (handleSubmit (some "key") backendW inpW9 none).saveCalls = 1
    ∧ (load_tracker (handleSubmit (some "key") backendW inpW9 none).store).rows.map
        (fun r =>
          lookupCell (load_tracker (handleSubmit (some "key") backendW inpW9 none).store).cols
            r "Expected Salary".toList)
        = ["-1000".toList]
    ∧ ((-1000 : Int) < 0) := by
  refine ⟨rfl, ?_, by decide⟩
  decide

/-- Claim C9 as amended: every successful submit persists exactly one new
record whose Expected Salary cell is the submitted integer rendered in
decimal, whatever its sign — the code enforces no non-negativity. -/
theorem salary_persisted_verbatim (apiKey : Option String) (backend : Backend)
    (inp : FormInputs) (file : TrackerFile) (f : UploadedFile)
    (hkey : truthy apiKey = true) (hcv : inp.cv_file = some f) (hjd : inp.job_desc ≠ "") :
    (load_tracker (handleSubmit apiKey backend inp file).store).rows.length
        = (load_tracker file).rows.length + 1
    ∧ ∀ r ∈ (load_tracker (handleSubmit apiKey backend inp file).store).rows.drop
          (load_tracker file).rows.length,
        lookupCell (load_tracker (handleSubmit apiKey backend inp file).store).cols r
            "Expected Salary".toList
          = (toString inp.expected_salary).toList := by
  have hstore : (handleSubmit apiKey backend inp file).store
      = save_tracker file
          ⟨trackerCols, [buildRow inp (analyze_cv_fit backend (get_cv_text f) inp.job_desc)]⟩ := by
    by_cases hst : inp.status = "Interview" <;>
      simp [handleSubmit, hkey, hcv, hjd, hst]
  rw [hstore]
  obtain ⟨hrows, hlen, hsub⟩ := save_load_core file
    ⟨trackerCols, [buildRow inp (analyze_cv_fit backend (get_cv_text f) inp.job_desc)]⟩
    rfl (by
      intro r hrm
      rw [List.mem_singleton] at hrm
      subst hrm
      rfl)
  constructor
  · rw [hlen]
    rfl
  · intro r hrm
    rw [hrows] at hrm
    dsimp only at hrm
    rw [List.drop_left' (by rw [List.length_map])] at hrm
    rw [List.map_singleton, List.mem_singleton] at hrm
    subst hrm
    show lookupCell _ (List.map _ _) _ = _
    rw [lookupCell_map_self _ _ _ (hsub (by decide))]
    rfl

/-- Witness for the amended C9 at a concrete submit with salary -1000. -/
theorem salary_persisted_verbatim_witness :
    (load_tracker (handleSubmit (some "key") backendW inpW9 none).store).rows.length
        = (load_tracker none).rows.length + 1
    ∧ lookupCell (load_tracker (handleSubmit (some "key") backendW inpW9 none).store).cols
        (((load_tracker (handleSubmit (some "key") backendW inpW9 none).store).rows.drop
            (load_tracker none).rows.length).getD 0 [])
        "Expected Salary".toList
      = (toString inpW9.expected_salary).toList :=
  ⟨(salary_persisted_verbatim (some "key") backendW inpW9 none uploadW rfl rfl (by decide)).1,
   (salary_persisted_verbatim (some "key") backendW inpW9 none uploadW rfl rfl (by decide)).2
     _ (by decide)⟩

end Trackfolio
